import Mathlib

/-!
Verification of the UIDAI data-hackathon analytics pipeline.

The repository loads Aadhaar enrolment / demographic / biometric CSV extracts
with pandas (`backend.py`, `frontend.py`), normalizes column names, parses a
date column, zero-fills numeric columns, and serves grouped aggregations
(state summaries, date trends, district rankings, biometric coverage).

This file is a shallow embedding of that pipeline: pandas dataframes become
lists of typed rows, pandas `groupby` becomes an explicit
sort-the-distinct-keys-and-sum operation (with its `dropna=True` default:
rows whose key is missing are excluded), pandas
`sort_values(ascending=False)` becomes a stable ascending insertion sort
followed by a reversal (`pandas.core.sorting.nargsort` computes the
ascending argsort and reverses it; numpy's quicksort runs plain stable
insertion sort on arrays shorter than 17 elements, so the model is exact on
all concrete inputs used below and agrees on sortedness, membership and
length in general), and IEEE-754 float division of the integer totals
becomes an explicit four-point type (finite rational, +inf, -inf, NaN)
following numpy semantics for division by zero.
-/

set_option maxHeartbeats 1000000

namespace Pipeline
/-- Insert an element into a list, moving past every element that the strict
comparison `lt` puts strictly before it.  Equal elements are not passed, so
the earlier-inserted element stays in front: this is the stable insertion
step of numpy's insertion sort. -/
def insertS (lt : α → α → Bool) (x : α) : List α → List α
  | [] => [x]
  | y :: ys => if lt y x then y :: insertS lt x ys else x :: y :: ys

/-- Stable ascending insertion sort with a strict Bool comparison. -/
def sortS (lt : α → α → Bool) : List α → List α
  | [] => []
  | x :: xs => insertS lt x (sortS lt xs)

/-- Comparison by an integer key, as used for `sort_values` on a numeric
column. -/
def ltKey (f : α → Int) (a b : α) : Bool := decide (f a < f b)

/-- Keep one copy of every element (the model only ever sorts the result, so
which copy survives is irrelevant). -/
def dedupL [DecidableEq α] : List α → List α
  | [] => []
  | x :: xs => if x ∈ xs then dedupL xs else x :: dedupL xs

/-- Sum of an integer-valued column over a list of rows. -/
def sumBy (f : α → Int) (l : List α) : Int := (l.map f).sum

/-- The distinct keys of a grouped aggregation, in the comparison order:
pandas `groupby(keys)` with its defaults `sort=True` (keys sorted ascending)
and `dropna=True` (rows whose key is missing contribute no group). -/
def groupKeys [DecidableEq κ] (key : α → Option κ) (lt : κ → κ → Bool)
    (rows : List α) : List κ :=
  sortS lt (dedupL (rows.filterMap key))

/-- The rows falling into the group of key `k`. -/
def groupRows [DecidableEq κ] (key : α → Option κ) (k : κ)
    (rows : List α) : List α :=
  rows.filter (fun r => decide (key r = some k))

/-!
Column-name normalization, `backend.py` line 27:
`df.columns.astype(str).str.strip().str.lower().str.replace(' ', '_')`.
Raw names are modelled as their sequences of Unicode code points
(`List Nat`).  `str.strip` removes leading/trailing whitespace (modelled by
the six ASCII whitespace code points), `str.lower` lower-cases (modelled on
the ASCII letters A-Z), `str.replace` turns every space (32) into an
underscore (95).
-/

/-- Whitespace code points stripped by Python `str.strip`. -/
def isWsCode (c : Nat) : Bool :=
  decide (c = 32 ∨ c = 9 ∨ c = 10 ∨ c = 13 ∨ c = 11 ∨ c = 12)

/-- ASCII lower-casing, as applied code-point-wise by `str.lower`. -/
def lowerCode (c : Nat) : Nat := if 65 ≤ c ∧ c ≤ 90 then c + 32 else c

/-- Replacement of a space by an underscore, `str.replace(' ', '_')`. -/
def replCode (c : Nat) : Nat := if c = 32 then 95 else c

/-- Remove trailing whitespace. -/
def dropTrailWs (l : List Nat) : List Nat :=
  (l.reverse.dropWhile isWsCode).reverse

/-- Python `str.strip`: remove leading and trailing whitespace. -/
def stripCodes (l : List Nat) : List Nat := dropTrailWs (l.dropWhile isWsCode)

/-- The column-name normalization of `backend.py` line 27:
strip, then lower-case, then replace spaces by underscores. -/
def cleanName (l : List Nat) : List Nat :=
  ((stripCodes l).map lowerCode).map replCode

/-- The relation the claim quantifies over: two raw names differing only in
letter case or in whitespace, i.e. equal once lower-cased and with every
whitespace code point ignored. -/
abbrev eqUpToCaseWs (s t : List Nat) : Prop :=
  (s.map lowerCode).filter (fun c => !(isWsCode c))
    = (t.map lowerCode).filter (fun c => !(isWsCode c))

/-!
Per-file loading, `backend.py` lines 15-38: each CSV file is read into a
table of cells, its column names are cleaned, and the first column whose
clean name contains the substring "date" is converted with
`pd.to_datetime(col, format='%d-%m-%Y', errors='coerce')`.  A cell is a
number, a text value, a parsed date, or the missing marker (pandas NaN/NaT).
`%d-%m-%Y` parsing is modelled by splitting on the dashes: day and month
take one or two digits, the year up to four, and the result must be a real
calendar date (pandas rejects e.g. 31-02-2024).  The pandas `Timestamp`
range restriction (years before 1678 / after 2261 also coerce to NaT) is
not modelled; no claim exercises it.
-/

structure Date where
  year : Nat
  month : Nat
  day : Nat
deriving DecidableEq

def leapYear (y : Nat) : Bool :=
  decide ((y % 4 = 0 ∧ y % 100 ≠ 0) ∨ y % 400 = 0)

def daysInMonth (m y : Nat) : Nat :=
  if m = 2 then (if leapYear y then 29 else 28)
  else if m = 4 ∨ m = 6 ∨ m = 9 ∨ m = 11 then 30
  else 31

def isDigitCh (c : Char) : Bool := decide ('0' ≤ c ∧ c ≤ '9')

def digitsVal (cs : List Char) : Nat :=
  cs.foldl (fun n c => 10 * n + (c.toNat - 48)) 0

/-- Split a character list at every dash. -/
def splitDash : List Char → List (List Char)
  | [] => [[]]
  | c :: cs =>
    if c = '-' then [] :: splitDash cs
    else
      match splitDash cs with
      | [] => [[c]]
      | p :: ps => (c :: p) :: ps

/-- One numeric field of the date format: at least one and at most `maxL`
digits. -/
def parseField (maxL : Nat) (cs : List Char) : Option Nat :=
  if 1 ≤ cs.length ∧ cs.length ≤ maxL ∧ cs.all isDigitCh
  then some (digitsVal cs) else none

/-- Parse a string against the fixed format `%d-%m-%Y` with calendar
validation; `none` is the parse failure that `errors='coerce'` turns into
the missing marker NaT. -/
def parseDMY (s : String) : Option Date :=
  match splitDash s.data with
  | [ds, ms, ys] =>
    match parseField 2 ds, parseField 2 ms, parseField 4 ys with
    | some d, some m, some y =>
      if 1 ≤ m ∧ m ≤ 12 ∧ 1 ≤ d ∧ d ≤ daysInMonth m y
      then some (Date.mk y m d) else none
    | _, _, _ => none
  | _ => none

/-- One cell of a loaded table. `missing` stands for both pandas NaN and
NaT. -/
inductive Cell where
  | num (v : Int)
  | text (s : String)
  | date (d : Date)
  | missing
deriving DecidableEq

/-- The effect of `pd.to_datetime(column, format='%d-%m-%Y',
errors='coerce')` on one cell: strings are parsed (failures coerce to NaT),
missing values stay missing, and numeric values fail the fixed-format parse
and coerce to NaT as well.  Total: no exception is ever raised. -/
def cellToDate : Cell → Cell
  | Cell.text s =>
    match parseDMY s with
    | some d => Cell.date d
    | none => Cell.missing
  | Cell.date d => Cell.date d
  | _ => Cell.missing

def startsWithCh : List Char → List Char → Bool
  | [], _ => true
  | _ :: _, [] => false
  | p :: ps, c :: cs => decide (p = c) && startsWithCh ps cs

/-- Substring containment on character lists, Python's `'date' in col`. -/
def hasSubCh (pat : List Char) : List Char → Bool
  | [] => pat.isEmpty
  | c :: cs => startsWithCh pat (c :: cs) || hasSubCh pat cs

def isDateColName (s : String) : Bool := hasSubCh "date".data s.data

/-- Index of the first element satisfying `p`: Python's
`next((col for col in df.columns if 'date' in col), None)`. -/
def findIdxO (p : α → Bool) : List α → Option Nat
  | [] => none
  | x :: xs => if p x then some 0 else (findIdxO p xs).map (fun n => n + 1)

/-- Apply `f` to the element at position `j` only. -/
def mapAt (f : α → α) (j : Nat) (l : List α) : List α :=
  match l, j with
  | [], _ => []
  | x :: xs, 0 => f x :: xs
  | x :: xs, n + 1 => x :: mapAt f n xs

/-- One loaded CSV file: column names and row-major cells. -/
structure Table where
  cols : List String
  rows : List (List Cell)
deriving DecidableEq

/-- String-level wrapper of the code-point normalization `cleanName`. -/
def cleanNameS (s : String) : String :=
  String.mk ((cleanName (s.data.map Char.toNat)).map Char.ofNat)

/-- The per-file body of `load_df_from_folder` (`backend.py` lines 25-32):
clean the column names, then convert the FIRST column whose clean name
contains "date" (if any) with the coercing date parser. -/
def processFile (t : Table) : Table :=
  let cols := t.cols.map cleanNameS
  match findIdxO isDateColName cols with
  | none => Table.mk cols t.rows
  | some j => Table.mk cols (t.rows.map (mapAt cellToDate j))

/-- The outcome of `pd.read_csv` on one file: a table, or any exception
(unreadable / unparsable file), which the `try ... except` swallows. -/
inductive ReadResult where
  | ok (t : Table)
  | failed
deriving DecidableEq

/-- `load_df_from_folder` (`backend.py` lines 15-38): process every
successfully read file and skip every failed one; total, so the load never
propagates an exception. -/
def load_df_from_folder (files : List ReadResult) : List Table :=
  files.filterMap (fun f =>
    match f with
    | ReadResult.ok t => some (processFile t)
    | ReadResult.failed => none)

/-- The rows of the concatenated dataset, `pd.concat(df_list,
ignore_index=True)`. -/
def folderRows (files : List ReadResult) : List (List Cell) :=
  ((load_df_from_folder files).map Table.rows).flatten

def rowCountR : ReadResult → Nat
  | ReadResult.ok t => t.rows.length
  | ReadResult.failed => 0

/-- A cell a numeric (number) dtype column may hold: a number or NaN. -/
def isNumCell : Cell → Bool
  | Cell.num _ => true
  | Cell.missing => true
  | _ => false

/-- Column `j` is recognized as numeric, `df.select_dtypes(include=
['number'])`: every cell of the column is a number or NaN (a column holding
any text stays object dtype, one holding parsed dates is datetime dtype;
neither is selected). -/
def colIsNumeric (rows : List (List Cell)) (j : Nat) : Bool :=
  rows.all (fun r =>
    match r.get? j with
    | some c => isNumCell c
    | none => true)

/-- `fillna(0)` on one cell. -/
def fillCell : Cell → Cell
  | Cell.missing => Cell.num 0
  | c => c

def mapIdxA (f : Nat → α → α) : Nat → List α → List α
  | _, [] => []
  | i, x :: xs => f i x :: mapIdxA f (i + 1) xs

/-- The numeric NaN fill of `backend.py` lines 46-50: on a non-empty
dataset, replace NaN by 0 in every column recognized as numeric, and leave
every other column untouched. -/
def fillNumeric (rows : List (List Cell)) : List (List Cell) :=
  if rows.isEmpty then rows
  else rows.map (fun r =>
    mapIdxA (fun j c => if colIsNumeric rows j then fillCell c else c) 0 r)

/-- The cell in row `k`, column `j` of a dataset, when both exist. -/
def cellAt (rows : List (List Cell)) (k j : Nat) : Option Cell :=
  (rows.get? k).bind (fun r => r.get? j)

/-!
The query layer.  After loading and the numeric fill, an enrolment row has
a state, a district, a parsed (nullable) date and three integer age-bucket
counts; demographic and biometric rows carry their category-specific
counts (`backend.py` uses `demo_age_5_17`, `bio_age_5_17`, `bio_age_17_`).
String keys are compared by code point, as Python compares `str`, and
dates chronologically; this is the ascending key order of
`groupby(sort=True)`.
-/

structure EnrolRow where
  state : Option String
  district : Option String
  date : Option Date
  age_0_5 : Int
  age_5_17 : Int
  age_18_greater : Int
deriving DecidableEq

structure DemoRow where
  state : Option String
  demo_age_5_17 : Int
deriving DecidableEq

structure BioRow where
  state : Option String
  bio_age_5_17 : Int
  bio_age_17_ : Int
deriving DecidableEq

def chListLt : List Char → List Char → Bool
  | [], [] => false
  | [], _ :: _ => true
  | _ :: _, [] => false
  | a :: as, b :: bs =>
    if a < b then true else if b < a then false else chListLt as bs

def strLtB (s t : String) : Bool := chListLt s.data t.data

def strPairLt (a b : String × String) : Bool :=
  if a.1 = b.1 then strLtB a.2 b.2 else strLtB a.1 b.1

def dateLtB (a b : Date) : Bool :=
  if a.year = b.year then
    (if a.month = b.month then decide (a.day < b.day)
     else decide (a.month < b.month))
  else decide (a.year < b.year)

/-- Per-row derived total, `df['age_0_5'] + df['age_5_17'] +
df['age_18_greater']`. -/
def totalOf (r : EnrolRow) : Int := r.age_0_5 + r.age_5_17 + r.age_18_greater

/-- Per-row derived total, `df['bio_age_5_17'] + df['bio_age_17_']`. -/
def bioTotalOf (r : BioRow) : Int := r.bio_age_5_17 + r.bio_age_17_

structure StatsResult where
  enrol_total_records : Int
  age_0_5_total : Int
  age_5_17_total : Int
  age_18_greater_total : Int
  demo_total_records : Int
  demo_age_5_17_total : Int
  bio_total_records : Int
  bio_age_5_17_total : Int
deriving DecidableEq

/-- `/stats` (`backend.py` lines 58-75): record counts and column sums,
each sum guarded by `if not df.empty else 0`. -/
def get_stats (enr : List EnrolRow) (demo : List DemoRow) (bio : List BioRow) :
    StatsResult :=
  StatsResult.mk
    (enr.length : Int)
    (if enr.isEmpty then 0 else sumBy (fun r => r.age_0_5) enr)
    (if enr.isEmpty then 0 else sumBy (fun r => r.age_5_17) enr)
    (if enr.isEmpty then 0 else sumBy (fun r => r.age_18_greater) enr)
    (demo.length : Int)
    (if demo.isEmpty then 0 else sumBy (fun r => r.demo_age_5_17) demo)
    (bio.length : Int)
    (if bio.isEmpty then 0 else sumBy (fun r => r.bio_age_5_17) bio)

structure EnrolAggRow where
  state : String
  age_0_5 : Int
  age_5_17 : Int
  age_18_greater : Int
  total_enrolment : Int
deriving DecidableEq

structure BioAggRow where
  state : String
  bio_age_5_17 : Int
  bio_age_17_ : Int
  total_biometric : Int
deriving DecidableEq

/-- The enrolment half of `/analytics/state-summary` (`backend.py` lines
82-85): `groupby('state')[age columns].sum()` plus the derived
`total_enrolment` column. -/
def enrolStateAgg (enr : List EnrolRow) : List EnrolAggRow :=
  (groupKeys (fun r => r.state) strLtB enr).map (fun s =>
    EnrolAggRow.mk s
      (sumBy (fun r => r.age_0_5) (groupRows (fun r => r.state) s enr))
      (sumBy (fun r => r.age_5_17) (groupRows (fun r => r.state) s enr))
      (sumBy (fun r => r.age_18_greater) (groupRows (fun r => r.state) s enr))
      (sumBy (fun r => r.age_0_5) (groupRows (fun r => r.state) s enr)
        + sumBy (fun r => r.age_5_17) (groupRows (fun r => r.state) s enr)
        + sumBy (fun r => r.age_18_greater) (groupRows (fun r => r.state) s enr)))

/-- The biometric half of `/analytics/state-summary` (`backend.py` lines
87-90). -/
def bioStateAgg (bio : List BioRow) : List BioAggRow :=
  (groupKeys (fun r => r.state) strLtB bio).map (fun s =>
    BioAggRow.mk s
      (sumBy (fun r => r.bio_age_5_17) (groupRows (fun r => r.state) s bio))
      (sumBy (fun r => r.bio_age_17_) (groupRows (fun r => r.state) s bio))
      (sumBy (fun r => r.bio_age_5_17) (groupRows (fun r => r.state) s bio)
        + sumBy (fun r => r.bio_age_17_) (groupRows (fun r => r.state) s bio)))

structure SummaryResult where
  enrolment : Option (List EnrolAggRow)
  biometric : Option (List BioAggRow)
deriving DecidableEq

/-- `/analytics/state-summary` (`backend.py` lines 77-92): each section is
present only when its dataframe is non-empty (`summary` starts as the empty
dict). -/
def get_state_summary (enr : List EnrolRow) (bio : List BioRow) :
    SummaryResult :=
  SummaryResult.mk
    (if enr.isEmpty then none else some (enrolStateAgg enr))
    (if bio.isEmpty then none else some (bioStateAgg bio))

/-- Zero-padded decimal rendering of width `w`. -/
def fmtNat (w n : Nat) : String :=
  String.mk (List.replicate (w - (toString n).length) '0') ++ toString n

/-- The `strftime('%Y-%m-%d')` rendering of a grouped date. -/
def fmtDate (d : Date) : String :=
  fmtNat 4 d.year ++ "-" ++ fmtNat 2 d.month ++ "-" ++ fmtNat 2 d.day

structure TrendRow where
  date : String
  age_0_5 : Int
  age_5_17 : Int
  age_18_greater : Int
deriving DecidableEq

/-- `/analytics/trends` (`backend.py` lines 94-104): `[]` on an empty
dataframe, otherwise `groupby('date')[age columns].sum()` with the date
rendered `%Y-%m-%d`. -/
def get_trends (enr : List EnrolRow) : List TrendRow :=
  if enr.isEmpty then []
  else
    (groupKeys (fun r => r.date) dateLtB enr).map (fun d =>
      TrendRow.mk (fmtDate d)
        (sumBy (fun r => r.age_0_5) (groupRows (fun r => r.date) d enr))
        (sumBy (fun r => r.age_5_17) (groupRows (fun r => r.date) d enr))
        (sumBy (fun r => r.age_18_greater) (groupRows (fun r => r.date) d enr)))

structure RankRow where
  state : String
  district : String
  total : Int
deriving DecidableEq

/-- The `groupby(['state', 'district'])` key of a row: present only when
both components are non-missing (a multi-key groupby drops a row if any key
is NaN). -/
def rankKey (r : EnrolRow) : Option (String × String) :=
  match r.state, r.district with
  | some s, some d => some (s, d)
  | _, _ => none

/-- The dataframe the rankings are computed from: `if state:` in Python is
false both for `None` and for the empty string, so only a non-empty state
argument filters. -/
def rankingPool (enr : List EnrolRow) (state : Option String) :
    List EnrolRow :=
  match state with
  | none => enr
  | some s =>
    if s = "" then enr else enr.filter (fun r => decide (r.state = some s))

/-- The grouped totals
`df.groupby(['state', 'district'])['total'].sum().reset_index()`. -/
def districtGroups (enr : List EnrolRow) (state : Option String) :
    List RankRow :=
  (groupKeys rankKey strPairLt (rankingPool enr state)).map (fun k =>
    RankRow.mk k.1 k.2
      (sumBy totalOf (groupRows rankKey k (rankingPool enr state))))

/-- `/analytics/district-rankings` (`backend.py` lines 106-118):
`sort_values('total', ascending=False).head(20)` over the grouped totals,
modelled as the reversal of the stable ascending sort (see the header). -/
def get_district_rankings (enr : List EnrolRow) (state : Option String) :
    List RankRow :=
  if enr.isEmpty then []
  else
    ((sortS (ltKey (fun r => r.total)) (districtGroups enr state)).reverse).take 20

/-!
The biometric-coverage page of `frontend.py` (lines 185-192): state
aggregates of `total_enrolment` and `total_biometric` are inner-merged on
state, then `pending_biometrics = total_enrolment - total_biometric` and
`coverage_pct = total_biometric / total_enrolment * 100`.  The columns are
floats, so the division follows numpy: a positive numerator over zero gives
+inf, a negative one -inf, and 0/0 gives NaN; no exception is raised.
`PFloat` is that value space, and `isnaF` is `pd.isna`, which is true of
NaN (the pandas missing/undefined marker) and false of the infinities.
-/

inductive PFloat where
  | fin (q : Rat)
  | posInf
  | negInf
  | nan
deriving DecidableEq

/-- Float division of two integer-valued columns under numpy semantics. -/
def fdivInt (a b : Int) : PFloat :=
  if b = 0 then
    (if 0 < a then PFloat.posInf else if a < 0 then PFloat.negInf else PFloat.nan)
  else PFloat.fin ((a : Rat) / (b : Rat))

def fmul100 : PFloat → PFloat
  | PFloat.fin q => PFloat.fin (q * 100)
  | PFloat.posInf => PFloat.posInf
  | PFloat.negInf => PFloat.negInf
  | PFloat.nan => PFloat.nan

/-- `pd.isna` on the value space: true exactly of NaN. -/
def isnaF : PFloat → Bool
  | PFloat.nan => true
  | _ => false

/-- `df_enrolment.groupby('state')['total_enrolment'].sum()`
(`frontend.py` line 188). -/
def enrStateTotals (enr : List EnrolRow) : List (String × Int) :=
  (groupKeys (fun r => r.state) strLtB enr).map (fun s =>
    (s, sumBy totalOf (groupRows (fun r => r.state) s enr)))

/-- `df_biometric.groupby('state')['total_biometric'].sum()`
(`frontend.py` line 187). -/
def bioStateTotals (bio : List BioRow) : List (String × Int) :=
  (groupKeys (fun r => r.state) strLtB bio).map (fun s =>
    (s, sumBy bioTotalOf (groupRows (fun r => r.state) s bio)))

def findVal (k : String) : List (String × Int) → Option Int
  | [] => none
  | p :: ps => if p.1 = k then some p.2 else findVal k ps

structure CoverageRow where
  state : String
  total_enrolment : Int
  total_biometric : Int
  pending_biometrics : Int
  coverage_pct : PFloat
deriving DecidableEq

/-- `frontend.py` lines 185-192: the whole block runs only when both
dataframes are non-empty; `pd.merge(..., on='state', how='inner')` keeps
the left (enrolment) key order and emits only states present in both
aggregates. -/
def pendingAndCoverage (enr : List EnrolRow) (bio : List BioRow) :
    List CoverageRow :=
  if enr.isEmpty || bio.isEmpty then []
  else
    (enrStateTotals enr).filterMap (fun p =>
      match findVal p.1 (bioStateTotals bio) with
      | none => none
      | some b =>
        some (CoverageRow.mk p.1 p.2 b (p.2 - b) (fmul100 (fdivInt b p.2))))

theorem insertS_perm (lt : α → α → Bool) (x : α) (l : List α) :
    List.Perm (insertS lt x l) (x :: l) := by
  induction l with
  | nil => rfl
  | cons y ys ih =>
    unfold insertS
    by_cases h : lt y x = true
    · rw [if_pos h]
      exact (List.Perm.cons y ih).trans (List.Perm.swap x y ys)
    · rw [if_neg h]

theorem sortS_perm (lt : α → α → Bool) (l : List α) :
    List.Perm (sortS lt l) l := by
  induction l with
  | nil => rfl
  | cons x xs ih =>
    exact (insertS_perm lt x (sortS lt xs)).trans (List.Perm.cons x ih)

theorem insertS_pairwise_ltKey (f : α → Int) (x : α) (l : List α)
    (h : l.Pairwise (fun a b => f a ≤ f b)) :
    (insertS (ltKey f) x l).Pairwise (fun a b => f a ≤ f b) := by
  induction l with
  | nil => simp [insertS]
  | cons y ys ih =>
    unfold insertS
    rcases List.pairwise_cons.mp h with ⟨hy, hys⟩
    by_cases hlt : ltKey f y x = true
    · rw [if_pos hlt]
      have hyx : f y < f x := by
        simpa [ltKey] using hlt
      refine List.pairwise_cons.mpr ⟨?_, ih hys⟩
      intro z hz
      have hz' : z = x ∨ z ∈ ys := by
        have := (insertS_perm (ltKey f) x ys).mem_iff.mp hz
        simpa using this
      rcases hz' with rfl | hz'
      · exact le_of_lt hyx
      · exact hy z hz'
    · rw [if_neg hlt]
      have hxy : f x ≤ f y := by
        simp only [ltKey, decide_eq_true_eq] at hlt
        omega
      refine List.pairwise_cons.mpr ⟨?_, h⟩
      intro z hz
      rcases List.mem_cons.mp hz with rfl | hz'
      · exact hxy
      · exact le_trans hxy (hy z hz')

theorem sortS_pairwise_ltKey (f : α → Int) (l : List α) :
    (sortS (ltKey f) l).Pairwise (fun a b => f a ≤ f b) := by
  induction l with
  | nil => simp [sortS]
  | cons x xs ih => exact insertS_pairwise_ltKey f x _ ih

theorem mem_dedupL [DecidableEq α] (a : α) (l : List α) :
    a ∈ dedupL l ↔ a ∈ l := by
  induction l with
  | nil => simp [dedupL]
  | cons x xs ih =>
    unfold dedupL
    by_cases hx : x ∈ xs
    · simp only [hx, if_true, ih, List.mem_cons]
      constructor
      · exact Or.inr
      · rintro (rfl | h)
        · exact hx
        · exact h
    · simp [hx, ih]

theorem nodup_dedupL [DecidableEq α] (l : List α) : (dedupL l).Nodup := by
  induction l with
  | nil => simp [dedupL]
  | cons x xs ih =>
    unfold dedupL
    by_cases hx : x ∈ xs
    · simpa [hx] using ih
    · simp only [hx, if_false]
      exact List.nodup_cons.mpr ⟨fun h => hx ((mem_dedupL x xs).mp h), ih⟩

theorem length_dedupL_le [DecidableEq α] (l : List α) :
    (dedupL l).length ≤ l.length := by
  induction l with
  | nil => simp [dedupL]
  | cons x xs ih =>
    unfold dedupL
    by_cases hx : x ∈ xs
    · simp only [hx, if_true, List.length_cons]
      omega
    · simp only [hx, if_false, List.length_cons]
      omega

theorem sumBy_nil (f : α → Int) : sumBy f [] = 0 := rfl

theorem sumBy_cons (f : α → Int) (x : α) (l : List α) :
    sumBy f (x :: l) = f x + sumBy f l := by
  simp [sumBy]

theorem mem_groupKeys [DecidableEq κ] (key : α → Option κ) (lt : κ → κ → Bool)
    (rows : List α) (k : κ) :
    k ∈ groupKeys key lt rows ↔ ∃ r ∈ rows, key r = some k := by
  unfold groupKeys
  rw [(sortS_perm lt _).mem_iff, mem_dedupL, List.mem_filterMap]

theorem nodup_groupKeys [DecidableEq κ] (key : α → Option κ) (lt : κ → κ → Bool)
    (rows : List α) : (groupKeys key lt rows).Nodup := by
  unfold groupKeys
  exact ((sortS_perm lt _).nodup_iff).mpr (nodup_dedupL _)

theorem length_groupKeys [DecidableEq κ] (key : α → Option κ) (lt : κ → κ → Bool)
    (rows : List α) :
    (groupKeys key lt rows).length = (dedupL (rows.filterMap key)).length := by
  unfold groupKeys
  exact (sortS_perm lt _).length_eq

theorem sumBy_filter_split (f : α → Int) (p q : α → Bool) (l : List α) :
    sumBy f (l.filter p)
      = sumBy f (l.filter (fun a => p a && q a))
        + sumBy f (l.filter (fun a => p a && !q a)) := by
  induction l with
  | nil => simp [sumBy]
  | cons x xs ih =>
    cases hp : p x <;> cases hq : q x <;>
      simp [List.filter_cons, hp, hq, sumBy_cons, ih] <;> omega

/-- Conservation of grouped sums: summing a value column over all the groups
of a grouped aggregation gives the sum of that column over exactly the rows
whose key is present (rows with a missing key are excluded, mirroring the
pandas `dropna=True` default). -/
theorem sum_over_groups [DecidableEq κ] (key : α → Option κ) (f : α → Int)
    (rows : List α) (ks : List κ) (hnd : ks.Nodup)
    (hcov : ∀ k, k ∈ ks ↔ ∃ r ∈ rows, key r = some k) :
    (ks.map (fun k => sumBy f (groupRows key k rows))).sum
      = sumBy f (rows.filter (fun r => (key r).isSome)) := by
  induction ks generalizing rows with
  | nil =>
    have hfil : rows.filter (fun r => (key r).isSome) = [] := by
      apply List.filter_eq_nil_iff.mpr
      intro r hr hcon
      rcases Option.isSome_iff_exists.mp (by simpa using hcon) with ⟨k, hk⟩
      exact absurd ((hcov k).mpr ⟨r, hr, hk⟩) (List.not_mem_nil k)
    simp [hfil, sumBy]
  | cons k ks ih =>
    rcases List.nodup_cons.mp hnd with ⟨hk_not, hnd'⟩
    set rows' := rows.filter (fun r => !(decide (key r = some k))) with hrows'
    have hgr : ∀ k' ∈ ks, groupRows key k' rows = groupRows key k' rows' := by
      intro k' hk'
      have hne : k' ≠ k := fun h => hk_not (h ▸ hk')
      unfold groupRows
      rw [hrows', List.filter_filter]
      apply List.filter_congr
      intro r hr
      cases hkr : key r with
      | none => simp
      | some kv =>
        by_cases hkv : kv = k'
        · subst hkv
          simp [Option.some_inj, hne]
        · simp [hkv]
    have hmap : (ks.map (fun k' => sumBy f (groupRows key k' rows))).sum
        = (ks.map (fun k' => sumBy f (groupRows key k' rows'))).sum := by
      congr 1
      exact List.map_congr_left (fun k' hk' => by rw [hgr k' hk'])
    have hcov' : ∀ k', k' ∈ ks ↔ ∃ r ∈ rows', key r = some k' := by
      intro k'
      constructor
      · intro hk'
        have hne : k' ≠ k := fun h => hk_not (h ▸ hk')
        rcases (hcov k').mp (List.mem_cons_of_mem k hk') with ⟨r, hr, hkr⟩
        refine ⟨r, ?_, hkr⟩
        rw [hrows']
        apply List.mem_filter.mpr
        refine ⟨hr, ?_⟩
        simp [hkr, hne]
      · intro ⟨r, hr, hkr⟩
        rcases List.mem_filter.mp (hrows' ▸ hr) with ⟨hrr, hcond⟩
        have : key r ≠ some k := by
          intro h
          simp [h] at hcond
        have hmem : k' ∈ k :: ks := (hcov k').mpr ⟨r, hrr, hkr⟩
        rcases List.mem_cons.mp hmem with rfl | h
        · exact absurd hkr this
        · exact h
    have hsplit : sumBy f (rows.filter (fun r => (key r).isSome))
        = sumBy f (groupRows key k rows)
          + sumBy f (rows'.filter (fun r => (key r).isSome)) := by
      rw [sumBy_filter_split f (fun r => (key r).isSome) (fun r => decide (key r = some k)) rows]
      congr 1
      · unfold groupRows
        congr 1
        apply List.filter_congr
        intro r hr
        cases hkr : key r <;> simp
      · rw [hrows', List.filter_filter]
    rw [List.map_cons, List.sum_cons, hmap, ih rows' hnd' hcov', hsplit]

theorem lowerCode_lowerCode (c : Nat) : lowerCode (lowerCode c) = lowerCode c := by
  by_cases h : 65 ≤ c ∧ c ≤ 90
  · have h1 : lowerCode c = c + 32 := if_pos h
    have h' : ¬ (65 ≤ c + 32 ∧ c + 32 ≤ 90) := by omega
    rw [h1]
    exact if_neg h'
  · have h1 : lowerCode c = c := if_neg h
    rw [h1, h1]

theorem isWsCode_lowerCode (c : Nat) : isWsCode (lowerCode c) = isWsCode c := by
  unfold lowerCode
  by_cases h : 65 ≤ c ∧ c ≤ 90
  · rw [if_pos h]
    unfold isWsCode
    rw [decide_eq_decide]
    omega
  · rw [if_neg h]

theorem replCode_replCode (c : Nat) : replCode (replCode c) = replCode c := by
  by_cases h : c = 32
  · subst h
    decide
  · simp [replCode, h]

theorem lowerCode_replCode_lowerCode (c : Nat) :
    lowerCode (replCode (lowerCode c)) = replCode (lowerCode c) := by
  by_cases h : lowerCode c = 32
  · rw [h]
    decide
  · simp only [replCode, if_neg h]
    exact lowerCode_lowerCode c

theorem isWsCode_replCode_of_not (c : Nat) (h : isWsCode c = false) :
    isWsCode (replCode c) = false := by
  have hc : c ≠ 32 := by
    intro hc
    subst hc
    simp [isWsCode] at h
  simp [replCode, hc, h]

theorem dropWhile_eq_self_of_head (p : α → Bool) (l : List α)
    (h : ∀ c, l.head? = some c → p c = false) : l.dropWhile p = l := by
  cases l with
  | nil => rfl
  | cons x xs =>
    have hx := h x rfl
    simp [List.dropWhile_cons, hx]

theorem head_dropWhile_false (p : α → Bool) (l : List α) (c : α)
    (h : (l.dropWhile p).head? = some c) : p c = false := by
  induction l with
  | nil => simp [List.dropWhile] at h
  | cons x xs ih =>
    by_cases hx : p x = true
    · rw [List.dropWhile_cons, if_pos hx] at h
      exact ih h
    · rw [List.dropWhile_cons, if_neg hx] at h
      simp only [List.head?_cons, Option.some.injEq] at h
      subst h
      exact eq_false_of_ne_true hx

theorem dropWhile_suffix_ex (p : α → Bool) (l : List α) :
    ∃ t, l = t ++ l.dropWhile p := by
  induction l with
  | nil => exact ⟨[], rfl⟩
  | cons x xs ih =>
    by_cases hx : p x = true
    · rcases ih with ⟨t, ht⟩
      refine ⟨x :: t, ?_⟩
      rw [List.dropWhile_cons, if_pos hx, List.cons_append]
      exact congrArg (List.cons x) ht
    · exact ⟨[], by simp [List.dropWhile_cons, hx]⟩

theorem head_append_ne (a b : List α) (h : a ≠ []) :
    (a ++ b).head? = a.head? := by
  cases a with
  | nil => exact absurd rfl h
  | cons x xs => rfl

theorem head_map (f : α → β) (l : List α) :
    (l.map f).head? = (l.head?).map f := by
  cases l <;> rfl

theorem head_stripCodes_false (l : List Nat) (c : Nat)
    (h : (stripCodes l).head? = some c) : isWsCode c = false := by
  unfold stripCodes dropTrailWs at h
  rcases dropWhile_suffix_ex isWsCode (l.dropWhile isWsCode).reverse with ⟨t, ht⟩
  set d := ((l.dropWhile isWsCode).reverse).dropWhile isWsCode with hd
  have hne : d.reverse ≠ [] := by
    intro he
    rw [he] at h
    cases h
  have hm : l.dropWhile isWsCode = d.reverse ++ t.reverse := by
    have := congrArg List.reverse ht
    rwa [List.reverse_reverse, List.reverse_append] at this
  have hhead : (l.dropWhile isWsCode).head? = some c := by
    rw [hm, head_append_ne _ _ hne]
    exact h
  exact head_dropWhile_false isWsCode l c hhead

theorem revhead_stripCodes_false (l : List Nat) (c : Nat)
    (h : ((stripCodes l).reverse).head? = some c) : isWsCode c = false := by
  unfold stripCodes dropTrailWs at h
  rw [List.reverse_reverse] at h
  exact head_dropWhile_false isWsCode _ c h

theorem stripCodes_eq_self (l : List Nat)
    (h1 : ∀ c, l.head? = some c → isWsCode c = false)
    (h2 : ∀ c, l.reverse.head? = some c → isWsCode c = false) :
    stripCodes l = l := by
  unfold stripCodes dropTrailWs
  rw [dropWhile_eq_self_of_head _ _ h1, dropWhile_eq_self_of_head _ _ h2]
  exact List.reverse_reverse l

theorem head_cleanName_false (l : List Nat) (c : Nat)
    (h : (cleanName l).head? = some c) : isWsCode c = false := by
  unfold cleanName at h
  rw [head_map, head_map] at h
  cases hu : (stripCodes l).head? with
  | none => rw [hu] at h; cases h
  | some c0 =>
    rw [hu] at h
    simp only [Option.map_some'] at h
    have hc : c = replCode (lowerCode c0) := by
      cases h
      rfl
    subst hc
    apply isWsCode_replCode_of_not
    rw [isWsCode_lowerCode]
    exact head_stripCodes_false l c0 hu

theorem revhead_cleanName_false (l : List Nat) (c : Nat)
    (h : ((cleanName l).reverse).head? = some c) : isWsCode c = false := by
  unfold cleanName at h
  rw [← List.map_reverse, ← List.map_reverse, head_map, head_map] at h
  cases hu : ((stripCodes l).reverse).head? with
  | none => rw [hu] at h; cases h
  | some c0 =>
    rw [hu] at h
    simp only [Option.map_some'] at h
    have hc : c = replCode (lowerCode c0) := by
      cases h
      rfl
    subst hc
    apply isWsCode_replCode_of_not
    rw [isWsCode_lowerCode]
    exact revhead_stripCodes_false l c0 hu

theorem cleanName_idem (l : List Nat) : cleanName (cleanName l) = cleanName l := by
  have hstrip : stripCodes (cleanName l) = cleanName l :=
    stripCodes_eq_self (cleanName l) (head_cleanName_false l) (revhead_cleanName_false l)
  show ((stripCodes (cleanName l)).map lowerCode).map replCode = cleanName l
  rw [hstrip]
  unfold cleanName
  simp only [List.map_map]
  congr 1
  funext c
  simp only [Function.comp_apply]
  rw [lowerCode_replCode_lowerCode, replCode_replCode]

theorem dropWhile_map (p : β → Bool) (f : α → β) (l : List α) :
    (l.map f).dropWhile p = (l.dropWhile (fun a => p (f a))).map f := by
  induction l with
  | nil => rfl
  | cons x xs ih =>
    by_cases hx : p (f x) = true
    · simp [List.dropWhile_cons, hx, ih]
    · simp [List.dropWhile_cons, hx]

theorem stripCodes_map_lower (l : List Nat) :
    stripCodes (l.map lowerCode) = (stripCodes l).map lowerCode := by
  have hfun : (fun a => isWsCode (lowerCode a)) = isWsCode :=
    funext isWsCode_lowerCode
  unfold stripCodes dropTrailWs
  rw [dropWhile_map, hfun, ← List.map_reverse, dropWhile_map, hfun, ← List.map_reverse]

theorem cleanName_eq_of_strip_lower_eq (s t : List Nat)
    (h : stripCodes (s.map lowerCode) = stripCodes (t.map lowerCode)) :
    cleanName s = cleanName t := by
  unfold cleanName
  rw [← stripCodes_map_lower, ← stripCodes_map_lower, h]

theorem length_mapAt (f : α → α) (j : Nat) (l : List α) :
    (mapAt f j l).length = l.length := by
  induction l generalizing j with
  | nil => cases j <;> rfl
  | cons x xs ih =>
    cases j with
    | zero => rfl
    | succ n => simp [mapAt, ih]

theorem get?_mapAt_ne (f : α → α) (j i : Nat) (l : List α) (h : i ≠ j) :
    (mapAt f j l).get? i = l.get? i := by
  induction l generalizing i j with
  | nil => cases j <;> rfl
  | cons x xs ih =>
    cases j with
    | zero =>
      cases i with
      | zero => exact absurd rfl h
      | succ i' => rfl
    | succ n =>
      cases i with
      | zero => rfl
      | succ i' =>
        simp only [mapAt, List.get?_cons_succ]
        exact ih n i' (fun he => h (by omega))

theorem get?_mapAt_eq (f : α → α) (j : Nat) (l : List α) :
    (mapAt f j l).get? j = (l.get? j).map f := by
  induction l generalizing j with
  | nil => cases j <;> rfl
  | cons x xs ih =>
    cases j with
    | zero => rfl
    | succ n => simpa [mapAt] using ih n

theorem get?_mapIdxA (f : Nat → α → α) (s i : Nat) (l : List α) :
    (mapIdxA f s l).get? i = (l.get? i).map (f (s + i)) := by
  induction l generalizing s i with
  | nil => rfl
  | cons x xs ih =>
    cases i with
    | zero => rfl
    | succ i' =>
      simp only [mapIdxA, List.get?_cons_succ]
      rw [ih (s + 1) i']
      have harith : s + 1 + i' = s + (i' + 1) := by omega
      rw [harith]

theorem processFile_rows_length (t : Table) :
    (processFile t).rows.length = t.rows.length := by
  unfold processFile
  cases h : findIdxO isDateColName (t.cols.map cleanNameS) with
  | none => simp [h]
  | some j => simp [h]

theorem fillCell_ne_missing (c : Cell) : fillCell c ≠ Cell.missing := by
  cases c <;> simp [fillCell]

theorem fillCell_of_ne (c : Cell) (h : c ≠ Cell.missing) : fillCell c = c := by
  cases c
  · rfl
  · rfl
  · rfl
  · exact absurd rfl h

/-- C4. Every column recognized as numeric has its missing values coerced to
zero by the fill, its non-missing values kept, and afterwards holds no
missing value; columns not recognized as numeric are untouched.  This
confirms the claim: within a numeric (number-dtype) column the only
missing-or-unparseable values pandas can represent are NaN, and the fill
turns exactly those into 0. -/
theorem C4_numeric_fill (rows : List (List Cell)) (k i : Nat) (c : Cell)
    (hc : cellAt rows k i = some c) :
    cellAt (fillNumeric rows) k i
        = some (if colIsNumeric rows i then fillCell c else c)
    ∧ (colIsNumeric rows i = true →
        cellAt (fillNumeric rows) k i ≠ some Cell.missing
        ∧ (c = Cell.missing → cellAt (fillNumeric rows) k i = some (Cell.num 0))
        ∧ (c ≠ Cell.missing → cellAt (fillNumeric rows) k i = some c))
    ∧ (colIsNumeric rows i = false → cellAt (fillNumeric rows) k i = some c) := by
  cases hrow : rows.get? k with
  | none => rw [cellAt, hrow] at hc; cases hc
  | some r =>
    rw [cellAt, hrow] at hc
    have hc' : r.get? i = some c := hc
    have hne : rows.isEmpty = false := by
      cases rows
      · cases hrow
      · rfl
    have hmain : cellAt (fillNumeric rows) k i
        = some (if colIsNumeric rows i then fillCell c else c) := by
      have hfill : fillNumeric rows
          = rows.map (fun r =>
              mapIdxA (fun j c => if colIsNumeric rows j then fillCell c else c) 0 r) := by
        unfold fillNumeric
        rw [hne]
        rw [if_neg Bool.false_ne_true]
      rw [cellAt, hfill, List.get?_map, hrow]
      show (mapIdxA (fun j c => if colIsNumeric rows j then fillCell c else c) 0 r).get? i
        = some (if colIsNumeric rows i then fillCell c else c)
      rw [get?_mapIdxA, hc', Nat.zero_add]
      rfl
    refine ⟨hmain, ?_, ?_⟩
    · intro hnum
      rw [hmain, if_pos hnum]
      refine ⟨?_, ?_, ?_⟩
      · intro hcon
        simp only [Option.some.injEq] at hcon
        exact fillCell_ne_missing c hcon
      · intro hm
        rw [hm]
        rfl
      · intro hm
        rw [fillCell_of_ne c hm]
    · intro hnot
      rw [hmain, if_neg (by rw [hnot]; exact Bool.false_ne_true)]

/-- Witness for C4 at a concrete dataset: column 0 is numeric (a number and
a NaN) and the NaN becomes 0. -/
theorem C4_numeric_fill_witness :
    cellAt (fillNumeric [[Cell.num 1, Cell.text "x"],
                         [Cell.missing, Cell.text "y"]]) 1 0
      = some (Cell.num 0) :=
  ((C4_numeric_fill [[Cell.num 1, Cell.text "x"], [Cell.missing, Cell.text "y"]]
      1 0 Cell.missing (by decide)).2.1 (by decide)).2.1 rfl

/-- C5, counterexample.  A file with the clean columns "date" and
"update_date": both names contain the substring "date", but only the first
column is converted (`next((col for col in df.columns if 'date' in col),
None)` takes the first match); the second keeps its raw text.  The claim
says every such column is parsed. -/
theorem C5_counterexample :
    isDateColName (cleanNameS "update_date") = true
    ∧ processFile (Table.mk ["date", "update_date"]
        [[Cell.text "01-01-2024", Cell.text "02-01-2024"]])
      = Table.mk ["date", "update_date"]
        [[Cell.date (Date.mk 2024 1 1), Cell.text "02-01-2024"]] :=
  ⟨by decide, by decide⟩

/-- C5, amended.  Only the FIRST column (in column order) whose clean name
contains "date" is parsed with the fixed day-month-year format; in that
column a parse failure (such as the invalid calendar date 31-02-2024)
becomes the missing marker, no exception is raised (the conversion is a
total function), every row is retained, and all cells of the other columns
are left intact. -/
theorem C5_date_parse (t : Table) (j : Nat)
    (hj : findIdxO isDateColName (t.cols.map cleanNameS) = some j) :
    (processFile t).cols = t.cols.map cleanNameS
    ∧ (processFile t).rows.length = t.rows.length
    ∧ (∀ k r, t.rows.get? k = some r →
        (processFile t).rows.get? k = some (mapAt cellToDate j r)
        ∧ (∀ i c, i ≠ j → r.get? i = some c →
            (mapAt cellToDate j r).get? i = some c)
        ∧ (∀ s, r.get? j = some (Cell.text s) →
            (mapAt cellToDate j r).get? j
              = some (match parseDMY s with
                      | some d => Cell.date d
                      | none => Cell.missing)))
    ∧ parseDMY "31-02-2024" = none := by
  have hpf : processFile t
      = Table.mk (t.cols.map cleanNameS) (t.rows.map (mapAt cellToDate j)) := by
    rw [processFile]
    simp only [hj]
  refine ⟨by rw [hpf], by rw [hpf]; exact List.length_map _ _, ?_, by decide⟩
  intro k r hk
  refine ⟨?_, ?_, ?_⟩
  · rw [hpf]
    simp only [List.get?_map, hk, Option.map_some']
  · intro i c hij hi
    rw [get?_mapAt_ne cellToDate j i r hij, hi]
  · intro s hs
    rw [get?_mapAt_eq, hs]
    rfl

/-- Witness for C5 at a one-column file holding the invalid date
31-02-2024: the row count is preserved. -/
theorem C5_date_parse_witness :
    (processFile (Table.mk ["date"] [[Cell.text "31-02-2024"]])).rows.length
      = (Table.mk ["date"] [[Cell.text "31-02-2024"]]).rows.length :=
  (C5_date_parse (Table.mk ["date"] [[Cell.text "31-02-2024"]]) 0 (by decide)).2.1

theorem folderRows_cons_ok (t : Table) (fs : List ReadResult) :
    folderRows (ReadResult.ok t :: fs) = (processFile t).rows ++ folderRows fs := by
  simp [folderRows, load_df_from_folder, List.filterMap_cons]

theorem folderRows_cons_failed (fs : List ReadResult) :
    folderRows (ReadResult.failed :: fs) = folderRows fs := by
  simp [folderRows, load_df_from_folder, List.filterMap_cons]

/-- C6.  Loading never aborts: a failed (unreadable/unparsable) file is
invisible to the result, wherever it occurs, and the loaded dataset holds
exactly the rows of the successfully read files (its row count is the sum
of their row counts).  The load function is total, so no exception
escapes. -/
theorem C6_partial_load (pre post files : List ReadResult) :
    folderRows (pre ++ ReadResult.failed :: post) = folderRows (pre ++ post)
    ∧ (folderRows files).length = (files.map rowCountR).sum := by
  constructor
  · induction pre with
    | nil => exact folderRows_cons_failed post
    | cons f fs ih =>
      cases f with
      | ok t =>
        rw [List.cons_append, List.cons_append, folderRows_cons_ok,
          folderRows_cons_ok, ih]
      | failed =>
        rw [List.cons_append, List.cons_append, folderRows_cons_failed,
          folderRows_cons_failed, ih]
  · induction files with
    | nil => rfl
    | cons f fs ih =>
      cases f with
      | ok t =>
        rw [folderRows_cons_ok, List.length_append, processFile_rows_length, ih,
          List.map_cons, List.sum_cons]
        rfl
      | failed =>
        rw [folderRows_cons_failed, ih, List.map_cons, List.sum_cons]
        simp [rowCountR]

/-- C8, counterexample.  The names "a b" and "a  b" (code points; one vs two
interior spaces) differ only in whitespace, yet normalize to the distinct
clean names "a_b" and "a__b": interior whitespace is replaced
underscore-for-space, not collapsed, so whitespace invariance fails. -/
theorem C8_counterexample :
    eqUpToCaseWs [97, 32, 98] [97, 32, 32, 98]
    ∧ cleanName [97, 32, 98] ≠ cleanName [97, 32, 32, 98] :=
  ⟨by decide, by decide⟩

/-- C8, amended.  Normalization is idempotent (and deterministic, being a
function), and two raw names that agree after lower-casing and stripping
surrounding whitespace — in particular names differing only in letter case
or in leading/trailing whitespace — get the same clean name.  Names
differing in interior whitespace may normalize apart. -/
theorem C8_normalize (s t : List Nat) :
    cleanName (cleanName s) = cleanName s
    ∧ (stripCodes (s.map lowerCode) = stripCodes (t.map lowerCode) →
        cleanName s = cleanName t) :=
  ⟨cleanName_idem s, cleanName_eq_of_strip_lower_eq s t⟩

/-- Witness for C8: " State " and "sTATE" differ only in case and
surrounding whitespace and clean to the same name. -/
theorem C8_normalize_witness :
    cleanName [32, 83, 116, 97, 116, 101, 32] = cleanName [115, 84, 65, 84, 69] :=
  (C8_normalize [32, 83, 116, 97, 116, 101, 32] [115, 84, 65, 84, 69]).2 (by decide)

/-- C9.  Every query of the facade handles an empty underlying dataset by
returning zero totals or an empty result: `/stats` reports zero counts and
zero sums for each empty category, `/analytics/trends` and
`/analytics/district-rankings` (under every state parameter) return `[]`,
and `/analytics/state-summary` omits the section of each empty dataframe.
All query functions are total, so none can fail the request. -/
theorem C9_empty_queries (enr : List EnrolRow) (demo : List DemoRow)
    (bio : List BioRow) (st : Option String) :
    (get_stats [] demo bio).enrol_total_records = 0
    ∧ (get_stats [] demo bio).age_0_5_total = 0
    ∧ (get_stats [] demo bio).age_5_17_total = 0
    ∧ (get_stats [] demo bio).age_18_greater_total = 0
    ∧ (get_stats enr [] bio).demo_total_records = 0
    ∧ (get_stats enr [] bio).demo_age_5_17_total = 0
    ∧ (get_stats enr demo []).bio_total_records = 0
    ∧ (get_stats enr demo []).bio_age_5_17_total = 0
    ∧ get_trends [] = []
    ∧ (get_state_summary [] bio).enrolment = none
    ∧ (get_state_summary enr []).biometric = none
    ∧ get_state_summary [] [] = SummaryResult.mk none none
    ∧ get_district_rankings [] st = [] :=
  ⟨rfl, rfl, rfl, rfl, rfl, rfl, rfl, rfl, rfl, rfl, rfl, rfl, rfl⟩

/-- C1, counterexample.  A state present in both aggregates with
enrolment_total = 0 (a row exists but all its counts are zero) and
biometric_total = 80: the code computes coverage_pct = 80/0*100 = +inf,
which `pd.isna` does NOT regard as missing/undefined — it is not the
pandas undefined marker (NaN), merely a non-zero non-error value.  The
claim's "explicit undefined marker" holds only when biometric_total is
zero too. -/
theorem C1_counterexample :
    pendingAndCoverage [EnrolRow.mk (some "X") (some "D") none 0 0 0]
        [BioRow.mk (some "X") 50 30]
      = [CoverageRow.mk "X" 0 80 (-80) PFloat.posInf]
    ∧ isnaF PFloat.posInf = false
    ∧ PFloat.posInf ≠ PFloat.nan :=
  ⟨by decide, rfl, by decide⟩

/-- C1, amended.  For every row of the inner join: when enrolment_total is
zero the coverage is never a finite zero and never an error (the
computation is total), but which non-finite value it is depends on the
numerator — NaN (the pandas undefined marker) only when biometric_total is
also zero, +inf when it is positive, -inf when negative; when
enrolment_total is non-zero, coverage_pct is exactly
biometric_total / enrolment_total * 100. -/
theorem C1_coverage_pct (enr : List EnrolRow) (bio : List BioRow)
    (r : CoverageRow) (hr : r ∈ pendingAndCoverage enr bio) :
    (r.total_enrolment = 0 →
        r.coverage_pct ≠ PFloat.fin 0
        ∧ (r.total_biometric = 0 → r.coverage_pct = PFloat.nan)
        ∧ (0 < r.total_biometric → r.coverage_pct = PFloat.posInf)
        ∧ (r.total_biometric < 0 → r.coverage_pct = PFloat.negInf))
    ∧ (r.total_enrolment ≠ 0 →
        r.coverage_pct
          = PFloat.fin ((r.total_biometric : Rat) / (r.total_enrolment : Rat) * 100)) := by
  have hshape : r.coverage_pct = fmul100 (fdivInt r.total_biometric r.total_enrolment) := by
    by_cases hg : (enr.isEmpty || bio.isEmpty) = true
    · rw [pendingAndCoverage, if_pos hg] at hr
      cases hr
    · rw [pendingAndCoverage, if_neg hg] at hr
      rcases List.mem_filterMap.mp hr with ⟨p, hp, heq⟩
      cases hfv : findVal p.1 (bioStateTotals bio) with
      | none => rw [hfv] at heq; cases heq
      | some b =>
        rw [hfv] at heq
        simp only [Option.some.injEq] at heq
        subst heq
        rfl
  rw [hshape]
  constructor
  · intro he
    rw [he]
    refine ⟨?_, ?_, ?_, ?_⟩
    · unfold fdivInt
      rw [if_pos rfl]
      split_ifs <;> simp [fmul100]
    · intro hb
      rw [hb]
      decide
    · intro hb
      unfold fdivInt
      rw [if_pos rfl, if_pos hb]
      rfl
    · intro hb
      unfold fdivInt
      rw [if_pos rfl, if_neg (by omega), if_pos hb]
      rfl
  · intro he
    unfold fdivInt
    rw [if_neg he]
    rfl

/-- Witness for C1 at enrolment_total = 100, biometric_total = 80 for the
single joined state: coverage_pct is the finite 80/100*100. -/
theorem C1_coverage_pct_witness :
    (CoverageRow.mk "X" 100 80 20 (fmul100 (fdivInt 80 100))).coverage_pct
      = PFloat.fin (((80 : Int) : Rat) / ((100 : Int) : Rat) * 100) :=
  (C1_coverage_pct [EnrolRow.mk (some "X") (some "D") none 40 30 30]
    [BioRow.mk (some "X") 50 30]
    (CoverageRow.mk "X" 100 80 20 (fmul100 (fdivInt 80 100)))
    (List.mem_singleton.mpr rfl)).2 (by decide)

/-- C2, counterexample.  One enrolment row whose date failed to parse
(missing date): `groupby('date')` with its `dropna=True` default drops the
row, so the trends output is empty — the row does NOT appear as its own
group, contradicting the claim. -/
theorem C2_counterexample :
    get_trends [EnrolRow.mk (some "S") (some "D") none 1 2 3] = [] :=
  by decide

/-- C2, amended.  Grouped summation drops the rows whose key column value
is null/missing (the pandas `dropna=True` groupby default): when every date
is missing the trends aggregation is empty even for a non-empty input.
Rows with a present key are never dropped: each reaches the group of its
key, in the by-date trends as well as in the by-state summary, and every
state group traces back to a row carrying that state. -/
theorem C2_group_nulls (enr : List EnrolRow) :
    ((∀ r ∈ enr, r.date = none) → get_trends enr = [])
    ∧ (∀ r ∈ enr, ∀ d, r.date = some d →
        TrendRow.mk (fmtDate d)
          (sumBy (fun x => x.age_0_5) (groupRows (fun x => x.date) d enr))
          (sumBy (fun x => x.age_5_17) (groupRows (fun x => x.date) d enr))
          (sumBy (fun x => x.age_18_greater) (groupRows (fun x => x.date) d enr))
          ∈ get_trends enr)
    ∧ (∀ r ∈ enr, ∀ s, r.state = some s →
        ∃ a ∈ enrolStateAgg enr, a.state = s)
    ∧ (∀ a ∈ enrolStateAgg enr, ∃ r ∈ enr, r.state = some a.state) := by
  refine ⟨?_, ?_, ?_, ?_⟩
  · intro hall
    by_cases he : enr.isEmpty = true
    · rw [get_trends, if_pos he]
    · have hfm : enr.filterMap (fun r => r.date) = [] := by
        apply List.filterMap_eq_nil_iff.mpr
        intro r hr
        exact hall r hr
      rw [get_trends, if_neg he]
      unfold groupKeys
      rw [hfm]
      rfl
  · intro r hr d hd
    have hne : ¬ (enr.isEmpty = true) := by
      cases enr
      · cases hr
      · simp
    rw [get_trends, if_neg hne]
    apply List.mem_map.mpr
    exact ⟨d, (mem_groupKeys _ _ _ _).mpr ⟨r, hr, hd⟩, rfl⟩
  · intro r hr s hs
    refine ⟨EnrolAggRow.mk s
      (sumBy (fun x => x.age_0_5) (groupRows (fun x => x.state) s enr))
      (sumBy (fun x => x.age_5_17) (groupRows (fun x => x.state) s enr))
      (sumBy (fun x => x.age_18_greater) (groupRows (fun x => x.state) s enr))
      (sumBy (fun x => x.age_0_5) (groupRows (fun x => x.state) s enr)
        + sumBy (fun x => x.age_5_17) (groupRows (fun x => x.state) s enr)
        + sumBy (fun x => x.age_18_greater) (groupRows (fun x => x.state) s enr)), ?_, rfl⟩
    unfold enrolStateAgg
    apply List.mem_map.mpr
    exact ⟨s, (mem_groupKeys _ _ _ _).mpr ⟨r, hr, hs⟩, rfl⟩
  · intro a ha
    unfold enrolStateAgg at ha
    rcases List.mem_map.mp ha with ⟨s, hs, rfl⟩
    rcases (mem_groupKeys _ _ _ _).mp hs with ⟨r, hr, hkey⟩
    refine ⟨r, hr, ?_⟩
    exact hkey

/-- Witness for C2 at a dataset whose every date is missing: the trends
aggregation is empty. -/
theorem C2_group_nulls_witness :
    get_trends [EnrolRow.mk (some "A") none none 1 0 0,
                EnrolRow.mk (some "B") none none 2 0 0] = [] :=
  (C2_group_nulls _).1 (by decide)

/-- C3, counterexample.  Districts A and B of state X with equal totals:
the ranking returns B before A although A is encountered first (both in
the input rows and in the sorted groupby output).  pandas sorts the
ascending argsort and reverses it, so tied rows come out in reversed,
not first-encountered, order — the claimed stability fails. -/
theorem C3_counterexample :
    get_district_rankings
        [EnrolRow.mk (some "X") (some "A") none 1 1 1,
         EnrolRow.mk (some "X") (some "B") none 1 1 1] none
      = [RankRow.mk "X" "B" 3, RankRow.mk "X" "A" 3]
    ∧ get_district_rankings
        [EnrolRow.mk (some "X") (some "A") none 1 1 1,
         EnrolRow.mk (some "X") (some "B") none 1 1 1] none
      ≠ [RankRow.mk "X" "A" 3, RankRow.mk "X" "B" 3] :=
  ⟨by decide, by decide⟩

theorem rankingPool_none (enr : List EnrolRow) : rankingPool enr none = enr := rfl

theorem rankingPool_some (enr : List EnrolRow) (s : String) :
    rankingPool enr (some s)
      = if s = "" then enr else enr.filter (fun r => decide (r.state = some s)) := rfl

theorem districtGroups_nil (st : Option String) : districtGroups [] st = [] := by
  have hpool : rankingPool [] st = [] := by
    cases st with
    | none => rfl
    | some s =>
      rw [rankingPool_some]
      by_cases hs : s = ""
      · rw [if_pos hs]
      · rw [if_neg hs]
        rfl
  unfold districtGroups
  rw [hpool]
  rfl

/-- C3, amended.  The district-rankings query returns the first 20 rows of
the grouped totals sorted by the total column in descending order — the
output is sorted descending, and whenever there are at most 20 groups it is
exactly a permutation of all the grouped rows; being a pure function of the
input it is deterministic.  Ties, however, do not keep first-encountered
order (see the counterexample): the implementation reverses an ascending
sort, which reverses tied rows. -/
theorem C3_rankings_order (enr : List EnrolRow) (st : Option String) :
    (get_district_rankings enr st).Pairwise (fun a b => b.total ≤ a.total)
    ∧ ((districtGroups enr st).length ≤ 20 →
        List.Perm (get_district_rankings enr st) (districtGroups enr st)) := by
  by_cases he : enr.isEmpty = true
  · have hout : get_district_rankings enr st = [] := by
      rw [get_district_rankings, if_pos he]
    have hgr : districtGroups enr st = [] := by
      have henr : enr = [] := by
        cases enr
        · rfl
        · cases he
      rw [henr]
      exact districtGroups_nil st
    rw [hout, hgr]
    exact ⟨List.Pairwise.nil, fun _ => List.Perm.refl []⟩
  · have hout : get_district_rankings enr st
        = ((sortS (ltKey (fun r => r.total)) (districtGroups enr st)).reverse).take 20 := by
      rw [get_district_rankings, if_neg he]
    constructor
    · rw [hout]
      apply List.Pairwise.sublist (List.take_sublist _ _)
      rw [List.pairwise_reverse]
      exact sortS_pairwise_ltKey (fun r : RankRow => r.total) _
    · intro hlen
      rw [hout]
      have hlen' : ((sortS (ltKey (fun r => r.total)) (districtGroups enr st)).reverse).length ≤ 20 := by
        rw [List.length_reverse, (sortS_perm _ _).length_eq]
        exact hlen
      rw [List.take_of_length_le hlen']
      exact (List.reverse_perm _).trans (sortS_perm _ _)

/-- Witness for C3 at a one-row dataset: fewer than 20 groups, so the
ranking is a permutation of all grouped rows. -/
theorem C3_rankings_order_witness :
    List.Perm
      (get_district_rankings [EnrolRow.mk (some "Y") (some "D") none 2 3 4] none)
      (districtGroups [EnrolRow.mk (some "Y") (some "D") none 2 3 4] none) :=
  (C3_rankings_order [EnrolRow.mk (some "Y") (some "D") none 2 3 4] none).2 (by decide)

/-- C7, counterexample.  One enrolment row whose state is missing: the
state summary has no groups at all, so the sum of age_0_5 over the output
is 0 while the input sum is 10 — conservation fails because `groupby`
drops the missing-key row. -/
theorem C7_counterexample :
    enrolStateAgg [EnrolRow.mk none (some "D") none 10 5 20] = []
    ∧ sumBy (fun r => r.age_0_5) [EnrolRow.mk none (some "D") none 10 5 20] = 10 :=
  ⟨by decide, by decide⟩

/-- C7, amended.  Grouped summation conserves each value column over the
rows whose key is present: the output sums equal the input sums over the
rows with a non-missing state, the output has at most as many rows as
there are distinct key values, and on any dataset whose keys are all
present full conservation holds. -/
theorem C7_groupSum_conservation (enr : List EnrolRow) :
    ((enrolStateAgg enr).map (fun a => a.age_0_5)).sum
        = sumBy (fun r => r.age_0_5) (enr.filter (fun r => (r.state).isSome))
    ∧ ((enrolStateAgg enr).map (fun a => a.age_5_17)).sum
        = sumBy (fun r => r.age_5_17) (enr.filter (fun r => (r.state).isSome))
    ∧ ((enrolStateAgg enr).map (fun a => a.age_18_greater)).sum
        = sumBy (fun r => r.age_18_greater) (enr.filter (fun r => (r.state).isSome))
    ∧ (enrolStateAgg enr).length ≤ (dedupL (enr.filterMap (fun r => r.state))).length
    ∧ ((∀ r ∈ enr, (r.state).isSome = true) →
        ((enrolStateAgg enr).map (fun a => a.age_0_5)).sum
            = sumBy (fun r => r.age_0_5) enr
        ∧ ((enrolStateAgg enr).map (fun a => a.age_5_17)).sum
            = sumBy (fun r => r.age_5_17) enr
        ∧ ((enrolStateAgg enr).map (fun a => a.age_18_greater)).sum
            = sumBy (fun r => r.age_18_greater) enr) := by
  have h0 : ((enrolStateAgg enr).map (fun a => a.age_0_5)).sum
      = sumBy (fun r => r.age_0_5) (enr.filter (fun r => (r.state).isSome)) := by
    unfold enrolStateAgg
    rw [List.map_map]
    exact sum_over_groups (fun r => r.state) (fun r => r.age_0_5) enr _
      (nodup_groupKeys _ _ _) (fun k => mem_groupKeys _ _ _ _)
  have h1 : ((enrolStateAgg enr).map (fun a => a.age_5_17)).sum
      = sumBy (fun r => r.age_5_17) (enr.filter (fun r => (r.state).isSome)) := by
    unfold enrolStateAgg
    rw [List.map_map]
    exact sum_over_groups (fun r => r.state) (fun r => r.age_5_17) enr _
      (nodup_groupKeys _ _ _) (fun k => mem_groupKeys _ _ _ _)
  have h2 : ((enrolStateAgg enr).map (fun a => a.age_18_greater)).sum
      = sumBy (fun r => r.age_18_greater) (enr.filter (fun r => (r.state).isSome)) := by
    unfold enrolStateAgg
    rw [List.map_map]
    exact sum_over_groups (fun r => r.state) (fun r => r.age_18_greater) enr _
      (nodup_groupKeys _ _ _) (fun k => mem_groupKeys _ _ _ _)
  have hlen : (enrolStateAgg enr).length
      ≤ (dedupL (enr.filterMap (fun r => r.state))).length := by
    unfold enrolStateAgg
    rw [List.length_map, length_groupKeys]
  refine ⟨h0, h1, h2, hlen, ?_⟩
  intro hall
  have hfil : enr.filter (fun r => (r.state).isSome) = enr :=
    List.filter_eq_self.mpr hall
  rw [hfil] at h0 h1 h2
  exact ⟨h0, h1, h2⟩

/-- Witness for C7 at the spec's worked example: two rows of state X with
all keys present; the grouped sum of age_0_5 equals the input sum 13. -/
theorem C7_groupSum_conservation_witness :
    ((enrolStateAgg [EnrolRow.mk (some "X") (some "A") none 10 5 20,
                     EnrolRow.mk (some "X") (some "B") none 3 2 1]).map
        (fun a => a.age_0_5)).sum
      = sumBy (fun r => r.age_0_5)
          [EnrolRow.mk (some "X") (some "A") none 10 5 20,
           EnrolRow.mk (some "X") (some "B") none 3 2 1] :=
  ((C7_groupSum_conservation _).2.2.2.2 (by decide)).1

/-- C10, counterexample.  Python's `if state:` is false for the empty
string, so the filter `state=""` — which matches no row — is silently
treated as "no filter" and the query returns the full (non-empty) ranking
instead of an empty result. -/
theorem C10_counterexample :
    get_district_rankings [EnrolRow.mk (some "X") (some "D") none 1 1 1] (some "")
      = [RankRow.mk "X" "D" 3]
    ∧ ([EnrolRow.mk (some "X") (some "D") none 1 1 1].all
        (fun r => !(decide (r.state = some "")))) = true :=
  ⟨by decide, by decide⟩

theorem rankingPool_empty_filter (enr : List EnrolRow) (s : String)
    (hs : s ≠ "") (h : ∀ r ∈ enr, r.state ≠ some s) :
    rankingPool enr (some s) = [] := by
  rw [rankingPool_some, if_neg hs]
  apply List.filter_eq_nil_iff.mpr
  intro r hr
  simp only [decide_eq_true_eq]
  exact h r hr

/-- C10, amended.  The district-rankings query always returns at most 20
rows, and with a NON-EMPTY state filter matching no row it returns the
empty result (never an error: the function is total).  The empty-string
filter, however, is falsy in Python and is treated as no filter at all. -/
theorem C10_rankings_bound (enr : List EnrolRow) (st : Option String) (s : String) :
    (get_district_rankings enr st).length ≤ 20
    ∧ (s ≠ "" → (∀ r ∈ enr, r.state ≠ some s) →
        get_district_rankings enr (some s) = [])
    ∧ get_district_rankings enr (some "") = get_district_rankings enr none := by
  refine ⟨?_, ?_, ?_⟩
  · by_cases he : enr.isEmpty = true
    · rw [get_district_rankings, if_pos he]
      exact Nat.zero_le 20
    · rw [get_district_rankings, if_neg he]
      exact List.length_take_le 20 _
  · intro hs h
    have hpool : rankingPool enr (some s) = [] := rankingPool_empty_filter enr s hs h
    have hgr : districtGroups enr (some s) = [] := by
      unfold districtGroups
      rw [hpool]
      rfl
    by_cases he : enr.isEmpty = true
    · rw [get_district_rankings, if_pos he]
    · rw [get_district_rankings, if_neg he, hgr]
      rfl
  · have hpool : rankingPool enr (some "") = rankingPool enr none := by
      rw [rankingPool_some, if_pos rfl, rankingPool_none]
    have hgr : districtGroups enr (some "") = districtGroups enr none := by
      unfold districtGroups
      rw [hpool]
    rw [get_district_rankings, get_district_rankings, hgr]

/-- Witness for C10: a non-empty filter matching no row yields the empty
ranking. -/
theorem C10_rankings_bound_witness :
    get_district_rankings [EnrolRow.mk (some "X") (some "D") none 1 1 1]
      (some "Z") = [] :=
  (C10_rankings_bound [EnrolRow.mk (some "X") (some "D") none 1 1 1] none "Z").2.1
    (by decide) (by decide)

end Pipeline
